import Mathlib

/-
Formal model of the pgat `sqlx-runner` core (tnextday/pgat):

* `Tx` and its operations `Begin`, `Commit`, `Rollback`, `AutoCommit`,
  `AutoRollback`, `pushState`, `popState` embed `sqlx-runner/tx.go`.
  The underlying driver transaction (`sqlx.Tx`) is modelled as always
  succeeding; the fields `realCommits` / `realRollbacks` count how many
  times the code invokes the underlying `tx.Tx.Commit()` /
  `tx.Tx.Rollback()`.  The Go slice `stateStack` keeps its top at the
  slice end; here the top is the list head (same stack discipline).
  `Logger.Error(msg, err)` is modelled as returning the distinguished
  error value it is given; error returns built only from a message are
  modelled as dedicated error constructors.
* `pgMustNotAllowEscapeSequence` embeds the interpolation safety gate of
  `sqlx-runner/db.go`.  The package-level cache variable
  `standardConformingStrings`, the query counter and process liveness
  (both `panic` and `log.Fatalf` terminate the process) are gathered in
  `GateState`; the server's answer to the settings query is the
  parameter `serverSetting` (`none` = the query fails).
* `splitEx` and `ExecMulti` embed the corresponding functions of
  `sqlx-runner/db.go`; text is a `List Char`, the regexp match spans
  are a list of index pairs as returned by Go's `FindAllStringIndex`,
  and the driver's `Exec` is an oracle `α → Option ε` (`none` = the
  statement succeeds).
-/

/-- The `txPending`, `txCommitted`, `txRollbacked`, `txErred` constants of tx.go. -/
inductive TxState
  | pending
  | committed
  | rollbacked
  | erred
deriving DecidableEq

/-- The distinguishable error values a `Tx` operation can return.
`errTxRollbacked` is the package variable `ErrTxRollbacked`; the other three
stand for the message-only errors produced via `Logger.Error`. -/
inductive TxErr
  | errTxRollbacked
  | alreadyCommitted
  | alreadyRollbacked
  | cannotRollbackCommitted
deriving DecidableEq

/-- The `Tx` struct of tx.go.  `id` models the identity of the Go object
(pointer identity of the wrapped `sqlx.Tx`); `realCommits` and
`realRollbacks` count the invocations of the underlying transaction's
`Commit()` and `Rollback()`. -/
structure Tx where
  id : Nat
  IsRollbacked : Bool
  state : TxState
  stateStack : List TxState
  realCommits : Nat
  realRollbacks : Nat
deriving DecidableEq

/-- Model of `WrapSqlxTx`: a fresh `Tx` wrapping a new driver transaction. -/
def WrapSqlxTx (id : Nat) : Tx :=
  { id := id, IsRollbacked := false, state := .pending, stateStack := [],
    realCommits := 0, realRollbacks := 0 }

/-- Model of `Tx.pushState`: append the current state to the stack, reset to pending. -/
def Tx.pushState (tx : Tx) : Tx :=
  { tx with stateStack := tx.state :: tx.stateStack, state := .pending }

/-- Model of `Tx.popState`: no-op on an empty stack, otherwise restore the top state. -/
def Tx.popState (tx : Tx) : Tx :=
  match tx.stateStack with
  | [] => tx
  | v :: rest => { tx with state := v, stateStack := rest }

/-- Model of `Tx.Begin`: nested begin.  On success Go returns the receiver pointer
itself, so the returned `Tx` is the mutated receiver. -/
def Tx.Begin (tx : Tx) : Tx × Option TxErr :=
  if tx.IsRollbacked then (tx, some .errTxRollbacked)
  else (tx.pushState, none)

/-- Model of `Tx.Commit`: the real commit is issued only when the state stack is
empty (driver success modelled). -/
def Tx.Commit (tx : Tx) : Tx × Option TxErr :=
  if tx.IsRollbacked then (tx, some .errTxRollbacked)
  else if tx.state = .committed then (tx, some .alreadyCommitted)
  else if tx.state = .rollbacked then (tx, some .alreadyRollbacked)
  else if tx.stateStack = [] then
    ({ tx with realCommits := tx.realCommits + 1, state := .committed }, none)
  else
    ({ tx with state := .committed }, none)

/-- Model of `Tx.Rollback`: the real rollback is sent to the database even in nested
state (driver success modelled). -/
def Tx.Rollback (tx : Tx) : Tx × Option TxErr :=
  if tx.IsRollbacked then (tx, some .errTxRollbacked)
  else if tx.state = .committed then (tx, some .cannotRollbackCommitted)
  else
    ({ tx with realRollbacks := tx.realRollbacks + 1, state := .rollbacked,
               IsRollbacked := true }, none)

/-- Model of `Tx.AutoCommit` (driver success modelled): its guard checks only the
rollback conditions before issuing the real commit. -/
def Tx.AutoCommit (tx : Tx) : Tx × Option TxErr :=
  if tx.state = .rollbacked ∨ tx.IsRollbacked then (tx.popState, none)
  else
    (Tx.popState { tx with realCommits := tx.realCommits + 1, state := .committed }, none)

/-- Model of `Tx.AutoRollback` (driver success modelled). -/
def Tx.AutoRollback (tx : Tx) : Tx × Option TxErr :=
  if tx.IsRollbacked ∨ tx.state = .committed then (tx.popState, none)
  else
    (Tx.popState { tx with realRollbacks := tx.realRollbacks + 1, state := .rollbacked,
                           IsRollbacked := true }, none)

/-- The five logical operations a caller can issue on one `Tx`. -/
inductive TxOp
  | opBegin
  | opCommit
  | opRollback
  | opAutoCommit
  | opAutoRollback
deriving DecidableEq

/-- One step of the transaction state machine. -/
def Tx.step (tx : Tx) : TxOp → Tx × Option TxErr
  | .opBegin => tx.Begin
  | .opCommit => tx.Commit
  | .opRollback => tx.Rollback
  | .opAutoCommit => tx.AutoCommit
  | .opAutoRollback => tx.AutoRollback

/-- Run a sequence of operations, keeping only the final state. -/
def Tx.run (tx : Tx) : List TxOp → Tx
  | [] => tx
  | op :: ops => ((tx.step op).1).run ops

/-- Run a sequence of operations, also collecting each call's returned error. -/
def Tx.runTrace (tx : Tx) : List TxOp → Tx × List (Option TxErr)
  | [] => (tx, [])
  | op :: ops =>
    (((tx.step op).1.runTrace ops).1, (tx.step op).2 :: ((tx.step op).1.runTrace ops).2)

/-- The process state seen by the interpolation safety gate: liveness (both
`panic` and `log.Fatalf` terminate the process), the package-level cache
`standardConformingStrings` (initially `""`), and how many times the
settings query was issued. -/
structure GateState where
  alive : Bool
  standardConformingStrings : String
  queryCount : Nat
deriving DecidableEq

/-- How one call of the gate ends. -/
inductive GateOutcome
  | proceeded
  | panicked
  | fatal
deriving DecidableEq

/-- Model of `pgMustNotAllowEscapeSequence` of db.go.  `enableInterpolation` is the
process-wide flag `dat.EnableInterpolation`; `serverSetting` is the server's
answer to the `standard_conforming_strings` query (`none` = query error). -/
def pgMustNotAllowEscapeSequence (enableInterpolation : Bool)
    (serverSetting : Option String) (st : GateState) : GateState × GateOutcome :=
  if !enableInterpolation then (st, .proceeded)
  else if st.standardConformingStrings = "" then
    match serverSetting with
    | none => ({ st with alive := false }, .panicked)
    | some v =>
      let st1 : GateState :=
        { st with standardConformingStrings := v, queryCount := st.queryCount + 1 }
      if st1.standardConformingStrings ≠ "on" then ({ st1 with alive := false }, .fatal)
      else (st1, .proceeded)
  else
    if st.standardConformingStrings ≠ "on" then ({ st with alive := false }, .fatal)
    else (st, .proceeded)

/-- Run `n` connection opens in one process (flag and server setting are
fixed per process); a dead process performs no further calls. -/
def runGate (enableInterpolation : Bool) (serverSetting : Option String) :
    Nat → GateState → GateState
  | 0, st => st
  | n + 1, st =>
    if st.alive then
      runGate enableInterpolation serverSetting n
        (pgMustNotAllowEscapeSequence enableInterpolation serverSetting st).1
    else st

/-- Go slice expression `text[a:b]`. -/
def substr (text : List Char) (a b : Nat) : List Char :=
  (text.take b).drop a

/-- The loop body of `splitEx`, carrying Go's `laststart` cursor. -/
def splitExGo (text : List Char) (laststart : Nat) : List (Nat × Nat) → List (List Char)
  | [] => [substr text laststart text.length]
  | (s, e) :: rest => substr text laststart s :: splitExGo text e rest

/-- Model of `splitEx` of db.go: split `text` at the given match spans
(`FindAllStringIndex` output). -/
def splitEx (text : List Char) (indexes : List (Nat × Nat)) : List (List Char) :=
  splitExGo text 0 indexes

/-- Modelled from the spec: the regexp `reScriptSeparator` is defined
outside the provided sources; per the spec the separator is a standalone
statement-separator token, a line containing only `GO`.  This returns the
match spans of that pattern: each occurrence of `GO` preceded by start of
text or a newline and followed by end of text or a newline. -/
def reScriptSeparatorMatches (text : List Char) : List (Nat × Nat) :=
  (List.range text.length).filterMap fun i =>
    if text.getD i ' ' = 'G' ∧ text.getD (i + 1) ' ' = 'O' ∧ i + 2 ≤ text.length
        ∧ (i = 0 ∨ text.getD (i - 1) ' ' = '\n')
        ∧ (i + 2 = text.length ∨ text.getD (i + 2) ' ' = '\n')
    then some (i, i + 2) else none

/-- The loop of `ExecMulti`, carrying the running index and the list of
statements handed to the driver so far. -/
def ExecMultiGo (exec : α → Option ε) : Nat → List α → List α → (Nat × Option ε) × List α
  | i, executed, [] => ((i, none), executed)
  | i, executed, c :: cs =>
    match exec c with
    | some e => ((i, some e), executed ++ [c])
    | none => ExecMultiGo exec (i + 1) (executed ++ [c]) cs

/-- Model of `ExecMulti` of db.go: returns Go's `(int, error)` pair together with the
ordered list of statements actually passed to the driver. -/
def ExecMulti (exec : α → Option ε) (commands : List α) : (Nat × Option ε) × List α :=
  ExecMultiGo exec 0 [] commands

/-- Invariant tying the permanent rollback flag to the count of real
rollback invocations. -/
def RbInv (tx : Tx) : Prop :=
  tx.realRollbacks ≤ 1 ∧ (tx.IsRollbacked = false → tx.realRollbacks = 0)

/-- Invariant for the safety gate: the settings query ran at most once, and
on a live process a performed query left a non-empty cache. -/
def GateInv (st : GateState) : Prop :=
  st.queryCount ≤ 1 ∧
    (st.alive = true → st.queryCount = 1 → ¬st.standardConformingStrings = "")

/-- The contract of Go's `FindAllStringIndex` output: match spans are in
order, non-overlapping and within the text. -/
def validMatches (len : Nat) : Nat → List (Nat × Nat) → Bool
  | _, [] => true
  | last, (s, e) :: rest =>
    decide (last ≤ s) && decide (s ≤ e) && decide (e ≤ len) && validMatches len e rest

/-- Interleave the segments produced by `splitEx` with the matched
separator substrings, in order. -/
def interleaveSegs : List (List Char) → List (List Char) → List Char
  | [], _ => []
  | s :: ss, [] => s ++ interleaveSegs ss []
  | s :: ss, m :: ms => s ++ m ++ interleaveSegs ss ms

@[simp] lemma pushState_id (tx : Tx) : (tx.pushState).id = tx.id := rfl

@[simp] lemma pushState_IsRollbacked (tx : Tx) : (tx.pushState).IsRollbacked = tx.IsRollbacked := rfl

@[simp] lemma pushState_state (tx : Tx) : (tx.pushState).state = .pending := rfl

@[simp] lemma pushState_stateStack (tx : Tx) :
    (tx.pushState).stateStack = tx.state :: tx.stateStack := rfl

@[simp] lemma pushState_realCommits (tx : Tx) : (tx.pushState).realCommits = tx.realCommits := rfl

@[simp] lemma pushState_realRollbacks (tx : Tx) :
    (tx.pushState).realRollbacks = tx.realRollbacks := rfl

@[simp] lemma popState_id (tx : Tx) : (tx.popState).id = tx.id := by
  obtain ⟨i, f, s, st, rc, rr⟩ := tx; cases st <;> rfl

@[simp] lemma popState_IsRollbacked (tx : Tx) : (tx.popState).IsRollbacked = tx.IsRollbacked := by
  obtain ⟨i, f, s, st, rc, rr⟩ := tx; cases st <;> rfl

@[simp] lemma popState_realCommits (tx : Tx) : (tx.popState).realCommits = tx.realCommits := by
  obtain ⟨i, f, s, st, rc, rr⟩ := tx; cases st <;> rfl

@[simp] lemma popState_realRollbacks (tx : Tx) :
    (tx.popState).realRollbacks = tx.realRollbacks := by
  obtain ⟨i, f, s, st, rc, rr⟩ := tx; cases st <;> rfl

@[simp] lemma popState_stateStack_length (tx : Tx) :
    (tx.popState).stateStack.length = tx.stateStack.length - 1 := by
  obtain ⟨i, f, s, st, rc, rr⟩ := tx; cases st <;> rfl

lemma popState_of_nil (tx : Tx) (h : tx.stateStack = []) : tx.popState = tx := by
  obtain ⟨i, f, s, st, rc, rr⟩ := tx
  cases st
  · rfl
  · exact absurd h (by simp)

lemma commit_stateStack (tx : Tx) : (tx.Commit).1.stateStack = tx.stateStack := by
  unfold Tx.Commit
  split
  · rfl
  · split
    · rfl
    · split
      · rfl
      · split <;> rfl

lemma rollback_stateStack (tx : Tx) : (tx.Rollback).1.stateStack = tx.stateStack := by
  unfold Tx.Rollback
  split
  · rfl
  · split <;> rfl

/-- C6: `Tx.Begin` fails with `ErrTxRollbacked` exactly when the rollback
flag is set; otherwise it pushes the current state onto the state stack,
resets the state to pending and returns the same transaction handle
(the mutated receiver, with the same identity), not a new object. -/
theorem c6_begin_behavior (tx : Tx) :
    ((tx.Begin).2 = some .errTxRollbacked ↔ tx.IsRollbacked = true) ∧
    (tx.IsRollbacked = false →
      tx.Begin = ({ tx with stateStack := tx.state :: tx.stateStack, state := .pending }, none)) ∧
    (tx.Begin).1.id = tx.id := by
  unfold Tx.Begin
  cases h : tx.IsRollbacked <;>
    simp [h, Tx.pushState]

/-- C6 witness: a concrete non-rollbacked transaction in committed state:
`Begin` pushes `committed`, resets to pending, keeps the identity. -/
theorem c6_begin_behavior_witness :
    (⟨5, false, .committed, [], 3, 0⟩ : Tx).Begin
      = (⟨5, false, .pending, [.committed], 3, 0⟩, none) :=
  (c6_begin_behavior ⟨5, false, .committed, [], 3, 0⟩).2.1 rfl

/-- C9: the state stack mirrors the nesting discipline: `popState` on an
empty stack is a safe no-op leaving state and stack unchanged; a pop removes
exactly one entry otherwise; a successful `Begin` pushes exactly one entry;
`Commit` and `Rollback` leave the stack untouched; `AutoCommit` and
`AutoRollback` each pop exactly one entry (and are no-ops at depth zero). -/
theorem c9_stack_discipline (tx : Tx) :
    (tx.stateStack = [] → tx.popState = tx) ∧
    (tx.popState).stateStack.length = tx.stateStack.length - 1 ∧
    (tx.IsRollbacked = false →
      ((tx.Begin).1.stateStack).length = tx.stateStack.length + 1) ∧
    (tx.Commit).1.stateStack = tx.stateStack ∧
    (tx.Rollback).1.stateStack = tx.stateStack ∧
    ((tx.AutoCommit).1.stateStack).length = tx.stateStack.length - 1 ∧
    ((tx.AutoRollback).1.stateStack).length = tx.stateStack.length - 1 := by
  refine ⟨popState_of_nil tx, popState_stateStack_length tx, ?_, commit_stateStack tx,
    rollback_stateStack tx, ?_, ?_⟩
  · intro h
    simp [Tx.Begin, h, Tx.pushState]
  · unfold Tx.AutoCommit
    split <;> simp
  · unfold Tx.AutoRollback
    split <;> simp

/-- C9 witness: on a fresh transaction, `popState` is a no-op and a
successful `Begin` grows the stack to depth one. -/
theorem c9_stack_discipline_witness :
    (WrapSqlxTx 0).popState = WrapSqlxTx 0 ∧
    (((WrapSqlxTx 0).Begin).1.stateStack).length = 1 :=
  ⟨(c9_stack_discipline (WrapSqlxTx 0)).1 rfl,
   (c9_stack_discipline (WrapSqlxTx 0)).2.2.1 rfl⟩

/-- C4 (code bug): after a successful explicit `Commit()` on a fresh
transaction, `AutoCommit()` is NOT a no-op: its guard omits the
`txCommitted` check (contradicting its own doc comment), so it invokes the
underlying transaction's commit a second time (`realCommits = 2`).  The
other three finalized combinations do behave as the claim says: after
`Commit()`, `AutoRollback()` pops and returns success without a real
operation, and after `Rollback()` both `AutoCommit()` and `AutoRollback()`
pop and return success without a real operation. -/
theorem c4_autocommit_after_commit_recommits :
    ((WrapSqlxTx 0).Commit.1.AutoCommit).1.realCommits = 2 ∧
    (WrapSqlxTx 0).Commit.1.AutoRollback = ((WrapSqlxTx 0).Commit.1, none) ∧
    (WrapSqlxTx 0).Rollback.1.AutoCommit = ((WrapSqlxTx 0).Rollback.1, none) ∧
    (WrapSqlxTx 0).Rollback.1.AutoRollback = ((WrapSqlxTx 0).Rollback.1, none) := by
  refine ⟨rfl, rfl, rfl, rfl⟩

/-- C1 counterexample: one nested `Begin()` followed by one `Commit()` on a
pending transaction: both calls succeed, yet the real underlying commit is
issued zero times, not exactly once on the final `Commit()`. -/
theorem c1_counterexample :
    ((WrapSqlxTx 0).runTrace [.opBegin, .opCommit]).2 = [none, none] ∧
    ((WrapSqlxTx 0).runTrace [.opBegin, .opCommit]).1.realCommits = 0 :=
  ⟨rfl, rfl⟩

/-- C2 counterexample: the sequence `Commit(); AutoCommit()` on one fresh
transaction invokes the underlying transaction's real commit twice, so the
real finalization calls are not bounded by one. -/
theorem c2_counterexample :
    ((WrapSqlxTx 0).run [.opCommit, .opAutoCommit]).realCommits
      + ((WrapSqlxTx 0).run [.opCommit, .opAutoCommit]).realRollbacks = 2 :=
  rfl

lemma replicate_append_cons (k : Nat) (a : α) (l : List α) :
    List.replicate k a ++ (a :: l) = a :: (List.replicate k a ++ l) := by
  induction k with
  | zero => rfl
  | succ k ih => simp [List.replicate_succ, ih]

lemma runTrace_append (tx : Tx) (l1 l2 : List TxOp) :
    tx.runTrace (l1 ++ l2)
      = (((tx.runTrace l1).1.runTrace l2).1,
         (tx.runTrace l1).2 ++ ((tx.runTrace l1).1.runTrace l2).2) := by
  induction l1 generalizing tx with
  | nil => simp [Tx.runTrace]
  | cons op ops ih => simp [Tx.runTrace, ih]

lemma runTrace_replicate_begin (k i : Nat) (st : List TxState) (rc rr : Nat) :
    Tx.runTrace ⟨i, false, .pending, st, rc, rr⟩ (List.replicate k .opBegin)
      = (⟨i, false, .pending, List.replicate k TxState.pending ++ st, rc, rr⟩,
         List.replicate k none) := by
  induction k generalizing st with
  | zero => simp [Tx.runTrace]
  | succ k ih =>
    rw [List.replicate_succ, List.replicate_succ, List.replicate_succ]
    have hstep : Tx.step ⟨i, false, .pending, st, rc, rr⟩ .opBegin
        = (⟨i, false, .pending, .pending :: st, rc, rr⟩, none) := rfl
    simp only [Tx.runTrace, hstep, ih (TxState.pending :: st)]
    rw [replicate_append_cons]
    simp [List.cons_append]

lemma runTrace_replicate_commit_committed (m i : Nat) (st : List TxState) (rc rr : Nat) :
    Tx.runTrace ⟨i, false, .committed, st, rc, rr⟩ (List.replicate m .opCommit)
      = (⟨i, false, .committed, st, rc, rr⟩, List.replicate m (some .alreadyCommitted)) := by
  induction m with
  | zero => simp [Tx.runTrace]
  | succ m ih =>
    rw [List.replicate_succ, List.replicate_succ]
    have hstep : Tx.step ⟨i, false, .committed, st, rc, rr⟩ .opCommit
        = (⟨i, false, .committed, st, rc, rr⟩, some .alreadyCommitted) := rfl
    simp only [Tx.runTrace, hstep, ih]

/-- C1 amended: for `n ≥ 1` nested `Begin()` calls followed by `n`
`Commit()` calls on a pending transaction, all `Begin`s succeed and the
first `Commit()` succeeds, but — because `Commit()` never pops the state
stack — the real underlying commit is issued zero times and every remaining
`Commit()` fails with the already-committed error.  (A real commit is issued
only by a `Commit()` whose state stack is empty, which after nested
`Begin`s requires each scope to have been popped by `AutoCommit()` or
`AutoRollback()` first.) -/
theorem c1_amended_nested_commits (n : Nat) (h : 1 ≤ n) :
    (WrapSqlxTx 0).runTrace (List.replicate n .opBegin ++ List.replicate n .opCommit)
      = (⟨0, false, .committed, List.replicate n .pending, 0, 0⟩,
         List.replicate n none
           ++ none :: List.replicate (n - 1) (some .alreadyCommitted)) := by
  obtain ⟨m, rfl⟩ : ∃ m, n = m + 1 := ⟨n - 1, (Nat.succ_pred_eq_of_pos h).symm⟩
  rw [show WrapSqlxTx 0 = (⟨0, false, .pending, [], 0, 0⟩ : Tx) from rfl, runTrace_append,
    runTrace_replicate_begin, List.append_nil]
  have hstep : Tx.step ⟨0, false, .pending, List.replicate (m + 1) TxState.pending, 0, 0⟩
        .opCommit
      = (⟨0, false, .committed, List.replicate (m + 1) TxState.pending, 0, 0⟩, none) := by
    rw [List.replicate_succ]
    rfl
  rw [show List.replicate (m + 1) TxOp.opCommit = .opCommit :: List.replicate m .opCommit from
    List.replicate_succ ..]
  simp only [Tx.runTrace, hstep, List.append_nil, runTrace_replicate_commit_committed,
    Nat.add_sub_cancel]

/-- C1 amended witness: the amended statement at `n = 2`. -/
theorem c1_amended_nested_commits_witness :
    1 ≤ 2 ∧
    (WrapSqlxTx 0).runTrace (List.replicate 2 .opBegin ++ List.replicate 2 .opCommit)
      = (⟨0, false, .committed, List.replicate 2 .pending, 0, 0⟩,
         List.replicate 2 none ++ none :: List.replicate (2 - 1) (some .alreadyCommitted)) :=
  ⟨by decide, c1_amended_nested_commits 2 (by decide)⟩

lemma RbInv_Begin (tx : Tx) (h : RbInv tx) : RbInv (tx.Begin).1 := by
  obtain ⟨h1, h2⟩ := h
  unfold Tx.Begin
  split
  · exact ⟨h1, h2⟩
  · exact ⟨h1, h2⟩

lemma RbInv_Commit (tx : Tx) (h : RbInv tx) : RbInv (tx.Commit).1 := by
  obtain ⟨h1, h2⟩ := h
  unfold Tx.Commit
  split
  · exact ⟨h1, h2⟩
  · split
    · exact ⟨h1, h2⟩
    · split
      · exact ⟨h1, h2⟩
      · split
        · exact ⟨h1, h2⟩
        · exact ⟨h1, h2⟩

lemma RbInv_Rollback (tx : Tx) (h : RbInv tx) : RbInv (tx.Rollback).1 := by
  obtain ⟨h1, h2⟩ := h
  unfold Tx.Rollback
  split
  · exact ⟨h1, h2⟩
  · split
    · exact ⟨h1, h2⟩
    · next hflag _ =>
      have h0 : tx.realRollbacks = 0 := h2 (by simpa using hflag)
      exact ⟨by simp [h0], by simp⟩

lemma RbInv_AutoCommit (tx : Tx) (h : RbInv tx) : RbInv (tx.AutoCommit).1 := by
  obtain ⟨h1, h2⟩ := h
  unfold Tx.AutoCommit
  split
  · exact ⟨by simpa using h1, by simpa using h2⟩
  · exact ⟨by simpa using h1, by simpa using h2⟩

lemma RbInv_AutoRollback (tx : Tx) (h : RbInv tx) : RbInv (tx.AutoRollback).1 := by
  obtain ⟨h1, h2⟩ := h
  unfold Tx.AutoRollback
  split
  · exact ⟨by simpa using h1, by simpa using h2⟩
  · next hcond =>
    have hflag : tx.IsRollbacked = false := by
      simpa using (not_or.mp hcond).1
    have h0 : tx.realRollbacks = 0 := h2 hflag
    exact ⟨by simp [h0], by simp⟩

lemma step_RbInv (tx : Tx) (op : TxOp) (h : RbInv tx) : RbInv ((tx.step op).1) := by
  cases op
  · exact RbInv_Begin tx h
  · exact RbInv_Commit tx h
  · exact RbInv_Rollback tx h
  · exact RbInv_AutoCommit tx h
  · exact RbInv_AutoRollback tx h

lemma run_RbInv (tx : Tx) (ops : List TxOp) (h : RbInv tx) : RbInv (tx.run ops) := by
  induction ops generalizing tx with
  | nil => exact h
  | cons op ops ih => exact ih _ (step_RbInv tx op h)

/-- C2 amended: over every finite sequence of logical calls on one fresh
transaction, the underlying database transaction's real `Rollback` is
invoked at most once in total (the permanent `IsRollbacked` flag guards
every real-rollback site); the real `Commit`, however, is NOT so bounded —
`Commit()` followed by `AutoCommit()` invokes it twice. -/
theorem c2_real_rollback_at_most_once (ops : List TxOp) :
    ((WrapSqlxTx 0).run ops).realRollbacks ≤ 1 :=
  (run_RbInv (WrapSqlxTx 0) ops ⟨by simp [WrapSqlxTx], by simp [WrapSqlxTx]⟩).1

lemma run_eq_runTrace_fst (tx : Tx) (ops : List TxOp) : tx.run ops = (tx.runTrace ops).1 := by
  induction ops generalizing tx with
  | nil => rfl
  | cons op ops ih => simp [Tx.run, Tx.runTrace, ih]

lemma step_flag (tx : Tx) (op : TxOp) (h : tx.IsRollbacked = true) :
    ((tx.step op).1).IsRollbacked = true := by
  cases op <;>
    simp [Tx.step, Tx.Begin, Tx.Commit, Tx.Rollback, Tx.AutoCommit, Tx.AutoRollback, h]

lemma run_flag (tx : Tx) (ops : List TxOp) (h : tx.IsRollbacked = true) :
    (tx.run ops).IsRollbacked = true := by
  induction ops generalizing tx with
  | nil => exact h
  | cons op ops ih => exact ih _ (step_flag tx op h)

lemma Commit_flagged (tx : Tx) (h : tx.IsRollbacked = true) :
    (tx.Commit).2 = some .errTxRollbacked := by
  simp [Tx.Commit, h]

lemma Rollback_flagged (tx : Tx) (h : tx.IsRollbacked = true) :
    (tx.Rollback).2 = some .errTxRollbacked := by
  simp [Tx.Rollback, h]

/-- C3: after any number `k` of prior nested `Begin()` calls on a fresh
transaction, a single `Rollback()` succeeds, immediately issues the real
rollback (the underlying rollback count becomes 1) and sets the rollback
flag; and after every further sequence of operations, `Commit()` and
`Rollback()` both fail with the dedicated `ErrTxRollbacked` error — in
particular `Commit()` after `Rollback()` returns the rollback-specific
error, not the generic already-committed one. -/
theorem c3_rollback_terminal (k : Nat) (ops : List TxOp) :
    (((WrapSqlxTx 0).run (List.replicate k .opBegin)).Rollback).2 = none ∧
    (((WrapSqlxTx 0).run (List.replicate k .opBegin)).Rollback).1.realRollbacks = 1 ∧
    (((WrapSqlxTx 0).run (List.replicate k .opBegin)).Rollback).1.IsRollbacked = true ∧
    (((((WrapSqlxTx 0).run (List.replicate k .opBegin)).Rollback).1.run ops).Commit).2
        = some .errTxRollbacked ∧
    (((((WrapSqlxTx 0).run (List.replicate k .opBegin)).Rollback).1.run ops).Rollback).2
        = some .errTxRollbacked := by
  have ht : (WrapSqlxTx 0).run (List.replicate k .opBegin)
      = (⟨0, false, .pending, List.replicate k .pending, 0, 0⟩ : Tx) := by
    rw [run_eq_runTrace_fst, show WrapSqlxTx 0 = (⟨0, false, .pending, [], 0, 0⟩ : Tx) from rfl,
      runTrace_replicate_begin]
    simp
  rw [ht]
  have hrb : (Tx.Rollback ⟨0, false, .pending, List.replicate k .pending, 0, 0⟩)
      = (⟨0, true, .rollbacked, List.replicate k .pending, 0, 1⟩, none) := rfl
  rw [hrb]
  have hflag :
      ((⟨0, true, .rollbacked, List.replicate k .pending, 0, 1⟩ : Tx).run ops).IsRollbacked
        = true :=
    run_flag _ ops rfl
  exact ⟨rfl, rfl, rfl, Commit_flagged _ hflag, Rollback_flagged _ hflag⟩

lemma gate_step_GateInv_mk (flag : Bool) (v : Option String) (cache : String) (qc : Nat)
    (h1 : qc ≤ 1) (h2 : qc = 1 → ¬cache = "") :
    GateInv (pgMustNotAllowEscapeSequence flag v ⟨true, cache, qc⟩).1 := by
  unfold pgMustNotAllowEscapeSequence GateInv
  cases flag with
  | false => exact ⟨h1, fun _ => h2⟩
  | true =>
    by_cases hc : cache = ""
    · have h0 : qc = 0 := by
        have hne : ¬qc = 1 := fun hq => (h2 hq) hc
        omega
      subst h0
      cases v with
      | none => simp [hc]
      | some val =>
        by_cases hval : val = "on"
        · subst hval
          simp [hc]
        · simp [hc, hval]
    · by_cases hon : cache = "on"
      · simp [hc, hon, h1]
      · simp [hc, hon, h1]

lemma gate_step_GateInv (flag : Bool) (v : Option String) (st : GateState)
    (h : GateInv st) (halive : st.alive = true) :
    GateInv (pgMustNotAllowEscapeSequence flag v st).1 := by
  obtain ⟨a, cache, qc⟩ := st
  obtain ⟨h1, h2⟩ := h
  have ha : a = true := halive
  subst ha
  exact gate_step_GateInv_mk flag v cache qc h1 (fun hq => h2 rfl hq)

lemma runGate_GateInv (flag : Bool) (v : Option String) (n : Nat) (st : GateState)
    (h : GateInv st) : GateInv (runGate flag v n st) := by
  induction n generalizing st with
  | zero => exact h
  | succ n ih =>
    unfold runGate
    split
    · next halive => exact ih _ (gate_step_GateInv flag v st h halive)
    · exact h

/-- C5: the interpolation safety gate is a no-op when the process-wide
interpolation flag is false; with the flag set it panics (aborting startup)
when the setting cannot be queried; it fatally terminates the process
whenever the (possibly just queried) setting differs from `"on"`; on the
safe value `"on"` it proceeds and caches the result, so a second connection
open does not re-query; and over any number of connection opens in one
process the settings query is issued at most once. -/
theorem c5_safety_gate :
    (∀ (v : Option String) (st : GateState),
      pgMustNotAllowEscapeSequence false v st = (st, .proceeded)) ∧
    pgMustNotAllowEscapeSequence true none ⟨true, "", 0⟩ = (⟨false, "", 0⟩, .panicked) ∧
    (∀ v : String, v ≠ "on" →
      (pgMustNotAllowEscapeSequence true (some v) ⟨true, "", 0⟩).2 = .fatal ∧
      ((pgMustNotAllowEscapeSequence true (some v) ⟨true, "", 0⟩).1).alive = false) ∧
    pgMustNotAllowEscapeSequence true (some "on") ⟨true, "", 0⟩
      = (⟨true, "on", 1⟩, .proceeded) ∧
    (pgMustNotAllowEscapeSequence true (some "on") ⟨true, "on", 1⟩
      = (⟨true, "on", 1⟩, .proceeded) ∧
     (pgMustNotAllowEscapeSequence true (some "on") ⟨true, "on", 1⟩).1.queryCount = 1) ∧
    (∀ (flag : Bool) (v : Option String) (n : Nat),
      (runGate flag v n ⟨true, "", 0⟩).queryCount ≤ 1) := by
  refine ⟨fun v st => rfl, rfl, fun v hv => ?_, by decide, by decide, fun flag v n => ?_⟩
  · unfold pgMustNotAllowEscapeSequence
    simp [hv]
  · exact (runGate_GateInv flag v n ⟨true, "", 0⟩ ⟨by decide, by simp⟩).1

/-- C5 witness: the fatal branch at the concrete unsafe setting `"off"`. -/
theorem c5_safety_gate_witness :
    "off" ≠ "on" ∧
    (pgMustNotAllowEscapeSequence true (some "off") ⟨true, "", 0⟩).2 = .fatal :=
  ⟨by decide, (c5_safety_gate.2.2.1 "off" (by decide)).1⟩

lemma ExecMultiGo_all_ok (exec : α → Option ε) (cs : List α) (i : Nat) (executed : List α)
    (h : ∀ c ∈ cs, exec c = none) :
    ExecMultiGo exec i executed cs = ((i + cs.length, none), executed ++ cs) := by
  induction cs generalizing i executed with
  | nil => simp [ExecMultiGo]
  | cons c cs ih =>
    have hc : exec c = none := h c (by simp)
    rw [ExecMultiGo, hc, ih (i + 1) (executed ++ [c]) (fun b hb => h b (by simp [hb]))]
    simp
    omega

lemma ExecMultiGo_first_fail (exec : α → Option ε) (cs : List α) (i : Nat) (executed : List α)
    (j : Nat) (c : α) (e : ε) (hc : cs[j]? = some c)
    (hok : ∀ b ∈ cs.take j, exec b = none) (he : exec c = some e) :
    ExecMultiGo exec i executed cs = ((i + j, some e), executed ++ cs.take (j + 1)) := by
  induction cs generalizing i executed j with
  | nil => simp at hc
  | cons a cs ih =>
    cases j with
    | zero =>
      simp only [List.getElem?_cons_zero, Option.some.injEq] at hc
      subst hc
      rw [ExecMultiGo, he]
      simp
    | succ j =>
      have ha : exec a = none := hok a (by simp [List.take_succ_cons])
      rw [ExecMultiGo, ha,
        ih (i + 1) (executed ++ [a]) j (by simpa using hc)
          (fun b hb => hok b (by simp [List.take_succ_cons, hb]))]
      simp [List.take_succ_cons]
      omega

/-- C7: `ExecMulti` executes the given statements in order; if the statement
at index `i` is the first to fail, it executes exactly statements `0..i`,
never executes any later statement, and returns index `i` together with
that statement's error; when every statement succeeds it returns the number
of statements executed and no error. -/
theorem c7_execmulti_first_failure (exec : α → Option ε) (cmds : List α) :
    (∀ (i : Nat) (c : α) (e : ε), cmds[i]? = some c →
      (∀ b ∈ cmds.take i, exec b = none) → exec c = some e →
      ExecMulti exec cmds = ((i, some e), cmds.take (i + 1))) ∧
    ((∀ c ∈ cmds, exec c = none) →
      ExecMulti exec cmds = ((cmds.length, none), cmds)) := by
  constructor
  · intro i c e hc hok he
    unfold ExecMulti
    rw [ExecMultiGo_first_fail exec cmds 0 [] i c e hc hok he]
    simp
  · intro h
    unfold ExecMulti
    rw [ExecMultiGo_all_ok exec cmds 0 [] h]
    simp

/-- C7 witness: three statements where the one at index 1 is the first to
fail: `ExecMulti` returns index 1 with that error and executed exactly the
statements at indexes 0 and 1. -/
theorem c7_execmulti_first_failure_witness :
    (([1, 5, 2] : List Nat)[1]? = some 5) ∧
    ExecMulti (fun n => if n = 5 then some () else none) [1, 5, 2] = ((1, some ()), [1, 5]) :=
  ⟨rfl, (c7_execmulti_first_failure (fun n => if n = 5 then some () else none) [1, 5, 2]).1
    1 5 () rfl (by decide) rfl⟩

/-- C8: splitting the script `"A;\nGO\nB;\nGO\nC;"` on the GO-on-its-own-line
separator yields exactly the ordered three segments `"A;\n"`, `"\nB;\n"`,
`"\nC;"`; splitting any text with zero separator matches yields the whole
text as the single statement; and leading / trailing segments are preserved
even when empty. -/
theorem c8_split_script_example :
    splitEx "A;\nGO\nB;\nGO\nC;".toList
        (reScriptSeparatorMatches "A;\nGO\nB;\nGO\nC;".toList)
      = ["A;\n".toList, "\nB;\n".toList, "\nC;".toList] ∧
    (∀ text : List Char, splitEx text [] = [text]) ∧
    splitEx "GO\nA".toList (reScriptSeparatorMatches "GO\nA".toList)
      = ["".toList, "\nA".toList] ∧
    splitEx "A\nGO".toList (reScriptSeparatorMatches "A\nGO".toList)
      = ["A\n".toList, "".toList] := by
  refine ⟨by decide, fun text => ?_, by decide, by decide⟩
  simp [splitEx, splitExGo, substr]

lemma drop_eq_substr_append (text : List Char) (a b : Nat) (h1 : a ≤ b)
    (h2 : b ≤ text.length) :
    text.drop a = substr text a b ++ text.drop b := by
  conv_lhs => rw [← List.take_append_drop b text]
  rw [List.drop_append_eq_append_drop, List.length_take_of_le h2,
    Nat.sub_eq_zero_of_le h1, List.drop_zero]
  rfl

lemma splitExGo_length (text : List Char) (laststart : Nat) (idxs : List (Nat × Nat)) :
    (splitExGo text laststart idxs).length = idxs.length + 1 := by
  induction idxs generalizing laststart with
  | nil => rfl
  | cons p rest ih =>
    obtain ⟨s, e⟩ := p
    simp [splitExGo, ih]

lemma interleave_splitExGo (text : List Char) (idxs : List (Nat × Nat)) (laststart : Nat)
    (h : validMatches text.length laststart idxs = true) :
    interleaveSegs (splitExGo text laststart idxs)
        (idxs.map fun p => substr text p.1 p.2) = text.drop laststart := by
  induction idxs generalizing laststart with
  | nil =>
    simp [splitExGo, interleaveSegs, substr, List.take_length]
  | cons p rest ih =>
    obtain ⟨s, e⟩ := p
    simp only [validMatches, Bool.and_eq_true, decide_eq_true_eq] at h
    obtain ⟨⟨⟨h1, h2⟩, h3⟩, h4⟩ := h
    simp only [splitExGo, List.map_cons, interleaveSegs]
    rw [ih e h4]
    conv_rhs => rw [drop_eq_substr_append text laststart s h1 (le_trans h2 h3),
      drop_eq_substr_append text s e h2 h3]
    rw [List.append_assoc]

/-- C10: for every text and every match-span list satisfying the regexp
library's contract, `splitEx` returns exactly (number of matches) + 1
segments, in order, and interleaving those segments with the matched
separator substrings reconstructs the input text exactly. -/
theorem c10_splitEx_reconstruction (text : List Char) (indexes : List (Nat × Nat))
    (h : validMatches text.length 0 indexes = true) :
    (splitEx text indexes).length = indexes.length + 1 ∧
    interleaveSegs (splitEx text indexes)
        (indexes.map fun p => substr text p.1 p.2) = text := by
  refine ⟨splitExGo_length text 0 indexes, ?_⟩
  simpa using interleave_splitExGo text indexes 0 h

/-- C10 witness: the reconstruction property at a concrete text and a
concrete single-match span list. -/
theorem c10_splitEx_reconstruction_witness :
    validMatches ("abGOcd".toList).length 0 [(2, 4)] = true ∧
    ((splitEx "abGOcd".toList [(2, 4)]).length = 2 ∧
     interleaveSegs (splitEx "abGOcd".toList [(2, 4)])
        ([(2, 4)].map fun p => substr "abGOcd".toList p.1 p.2) = "abGOcd".toList) :=
  ⟨by decide, c10_splitEx_reconstruction "abGOcd".toList [(2, 4)] (by decide)⟩
